import Mathlib

/-!
Verification of the exoplanet parameter pipeline of `Tutorial2.ipynb`
(repository `AstrophysicalConcepts`).

The notebook's four calculators are shallowly embedded over the reals
(`calcRplanet`, `calcOrbitalRad`, `calcOrbitalSpeed`, `calcOrbitalInc`);
numpy's silent NaN/infinity semantics, which decide the error-handling
claims, are embedded separately over the extended value type `NpVal`
(`npCalcRplanet`, `npCalcOrbitalInc`).  The dictionary-driven orchestrator
`getAllParms` is embedded over finite maps `Key → Option ℝ`, with a missing
key (Python `KeyError`) surfacing as `none`.
-/

namespace Tutorial2

/-- The gravitational constant as supplied by `astropy.constants.G`
(SI value, treated as an exact external constant per the spec). -/
noncomputable def G : ℝ := 6.6743e-11

/-- `calcRplanet(deltaF, Rstar, deltaFErr=0)` from the notebook:
`Rplanet = np.sqrt(deltaF) * Rstar`,
`RplanetErr = Rstar/(2*np.sqrt(deltaF))*deltaFErr`. -/
noncomputable def calcRplanet (deltaF Rstar deltaFErr : ℝ) : ℝ × ℝ :=
  (Real.sqrt deltaF * Rstar, Rstar / (2 * Real.sqrt deltaF) * deltaFErr)

/-- `calcOrbitalRad(Mstar, P)` from the notebook:
`((G*Mstar*(P**2))/(4*(np.pi**2)))**(1/3)`. -/
noncomputable def calcOrbitalRad (Mstar P : ℝ) : ℝ :=
  ((G * Mstar * P ^ 2) / (4 * Real.pi ^ 2)) ^ ((1 : ℝ) / 3)

/-- `calcOrbitalSpeed(a, P)` from the notebook: `2*np.pi*a/P`. -/
noncomputable def calcOrbitalSpeed (a P : ℝ) : ℝ :=
  2 * Real.pi * a / P

/-- `calcOrbitalInc(Rstar, Rplanet, a, P, Tdur, RplanetErr=0, TdurErr=0)`
from the notebook, staged exactly as in the source.  Note that the first
returned component is `np.pi/2*u.rad - np.arccos(Q)`. -/
noncomputable def calcOrbitalInc (Rstar Rplanet a P Tdur RplanetErr TdurErr : ℝ) : ℝ × ℝ :=
  let X := (Rstar + Rplanet) ^ 2
  let Xerr := 2 * (Rstar + Rplanet) * RplanetErr
  let Y := (a * Real.sin (Real.pi * Tdur / P)) ^ 2
  let Yerr := 2 * a * Real.sin (Real.pi * Tdur / P) * a * Real.cos (Real.pi * Tdur / P) *
      Real.pi / P * TdurErr
  let Z := X - Y
  let Zerr := Real.sqrt (Xerr ^ 2 + Yerr ^ 2)
  let Q := Real.sqrt Z / a
  let Qerr := Zerr / (2 * a * Real.sqrt Z)
  (Real.pi / 2 - Real.arccos Q, Qerr / Real.sqrt (1 - Q ^ 2))

/-- An IEEE-754-style extended value as produced by numpy floating-point
arithmetic: a finite real (rounding idealized away), `inf`, `-inf`, or NaN.
This carries the silent-NaN semantics the error-handling claims are about. -/
inductive NpVal where
  | fin (x : ℝ)
  | inf
  | ninf
  | nan

namespace NpVal

/-- IEEE addition. -/
noncomputable def add : NpVal → NpVal → NpVal
  | nan, _ => nan
  | fin _, nan => nan
  | inf, nan => nan
  | ninf, nan => nan
  | fin x, fin y => fin (x + y)
  | fin _, inf => inf
  | fin _, ninf => ninf
  | inf, fin _ => inf
  | ninf, fin _ => ninf
  | inf, inf => inf
  | ninf, ninf => ninf
  | inf, ninf => nan
  | ninf, inf => nan

/-- IEEE negation. -/
noncomputable def neg : NpVal → NpVal
  | fin x => fin (-x)
  | inf => ninf
  | ninf => inf
  | nan => nan

/-- IEEE subtraction. -/
noncomputable def sub (u w : NpVal) : NpVal := u.add w.neg

/-- IEEE multiplication (`0 * inf = nan`). -/
noncomputable def mul : NpVal → NpVal → NpVal
  | nan, _ => nan
  | fin _, nan => nan
  | inf, nan => nan
  | ninf, nan => nan
  | fin x, fin y => fin (x * y)
  | fin x, inf => if 0 < x then inf else if x < 0 then ninf else nan
  | fin x, ninf => if 0 < x then ninf else if x < 0 then inf else nan
  | inf, fin y => if 0 < y then inf else if y < 0 then ninf else nan
  | ninf, fin y => if 0 < y then ninf else if y < 0 then inf else nan
  | inf, inf => inf
  | ninf, ninf => inf
  | inf, ninf => ninf
  | ninf, inf => ninf

/-- IEEE division (`x/0` gives a signed infinity for `x ≠ 0` and NaN for
`0/0`; real zero is treated as numpy's `+0`). -/
noncomputable def div : NpVal → NpVal → NpVal
  | nan, _ => nan
  | fin _, nan => nan
  | inf, nan => nan
  | ninf, nan => nan
  | fin x, fin y =>
      if y = 0 then (if x = 0 then nan else if 0 < x then inf else ninf)
      else fin (x / y)
  | fin _, inf => fin 0
  | fin _, ninf => fin 0
  | inf, fin y => if y < 0 then ninf else inf
  | ninf, fin y => if y < 0 then inf else ninf
  | inf, inf => nan
  | inf, ninf => nan
  | ninf, inf => nan
  | ninf, ninf => nan

/-- `np.sqrt`: NaN (with a warning, not an exception) on negative input. -/
noncomputable def sqrt : NpVal → NpVal
  | fin x => if 0 ≤ x then fin (Real.sqrt x) else nan
  | inf => inf
  | ninf => nan
  | nan => nan

/-- `np.sin`: NaN on infinite or NaN input. -/
noncomputable def sin : NpVal → NpVal
  | fin x => fin (Real.sin x)
  | _ => nan

/-- `np.cos`: NaN on infinite or NaN input. -/
noncomputable def cos : NpVal → NpVal
  | fin x => fin (Real.cos x)
  | _ => nan

/-- `np.arccos`: NaN (with a warning, not an exception) outside `[-1, 1]`. -/
noncomputable def arccos : NpVal → NpVal
  | fin x => if -1 ≤ x ∧ x ≤ 1 then fin (Real.arccos x) else nan
  | _ => nan

/-- `** 2` on an IEEE value, i.e. squaring. -/
noncomputable def sq (u : NpVal) : NpVal := u.mul u

end NpVal

/-- `calcRplanet` under numpy's IEEE semantics, exactly as in the source:
`(np.sqrt(deltaF) * Rstar, Rstar/(2*np.sqrt(deltaF))*deltaFErr)`. -/
noncomputable def npCalcRplanet (deltaF Rstar deltaFErr : NpVal) : NpVal × NpVal :=
  (deltaF.sqrt.mul Rstar, (Rstar.div ((NpVal.fin 2).mul deltaF.sqrt)).mul deltaFErr)

/-- `calcOrbitalInc` under numpy's IEEE semantics, staged exactly as in the
source (all products associated left-to-right as Python evaluates them). -/
noncomputable def npCalcOrbitalInc (Rstar Rplanet a P Tdur RplanetErr TdurErr : NpVal) :
    NpVal × NpVal :=
  let X := (Rstar.add Rplanet).sq
  let Xerr := ((NpVal.fin 2).mul (Rstar.add Rplanet)).mul RplanetErr
  let th := ((NpVal.fin Real.pi).mul Tdur).div P
  let Y := (a.mul th.sin).sq
  let Yerr := (((((((NpVal.fin 2).mul a).mul th.sin).mul a).mul th.cos).mul
      (NpVal.fin Real.pi)).div P).mul TdurErr
  let Z := X.sub Y
  let Zerr := (Xerr.sq.add Yerr.sq).sqrt
  let Q := Z.sqrt.div a
  let Qerr := Zerr.div (((NpVal.fin 2).mul a).mul Z.sqrt)
  (((NpVal.fin Real.pi).div (NpVal.fin 2)).sub Q.arccos,
    Qerr.div (((NpVal.fin 1).sub Q.sq).sqrt))

/-- The dictionary keys used by `getAllParms` (the string keys of the
notebook's `parmDict`). -/
inductive Key where
  | P
  | Mstar
  | Rstar
  | deltaF
  | deltaFErr
  | Tdur
  | TdurErr
  | Rplanet
  | RplanetErr
  | Rp2Rs
  | Rp2RsErr
  | a
  | v
  | i
  | iErr
deriving DecidableEq

/-- A parameter dictionary: each key is present with a real value or absent.
Reading an absent key raises `KeyError` in Python, modelled as `none`. -/
abbrev Dict : Type := Key → Option ℝ

/-- Dictionary store, `parmDict[k] = x`. -/
def upd (d : Dict) (k : Key) (x : ℝ) : Dict :=
  fun q => if q = k then some x else d q

/-- `getAllParms(parmDict)` from the notebook (the computation only; the
`silent`-guarded report printing is presentation and has no effect on the
dictionary).  Every `parmDict[...]` read is a lookup, performed in Python's
left-to-right evaluation order, that fails when the key is absent; every
assignment is a store. -/
noncomputable def getAllParms (d : Dict) : Option Dict :=
  (d Key.deltaF).bind fun deltaF =>
  (d Key.Rstar).bind fun Rstar1 =>
  (d Key.deltaFErr).bind fun deltaFErr =>
  let rr := calcRplanet deltaF Rstar1 deltaFErr
  let d := upd (upd d Key.Rplanet rr.1) Key.RplanetErr rr.2
  (d Key.Rplanet).bind fun Rplanet1 =>
  (d Key.Rstar).bind fun Rstar2 =>
  let d := upd d Key.Rp2Rs (Rplanet1 / Rstar2)
  (d Key.RplanetErr).bind fun RplanetErr1 =>
  (d Key.Rstar).bind fun Rstar3 =>
  let d := upd d Key.Rp2RsErr (RplanetErr1 / Rstar3)
  (d Key.Mstar).bind fun Mstar1 =>
  (d Key.P).bind fun P1 =>
  let d := upd d Key.a (calcOrbitalRad Mstar1 P1)
  (d Key.a).bind fun a1 =>
  (d Key.P).bind fun P2 =>
  let d := upd d Key.v (calcOrbitalSpeed a1 P2)
  (d Key.Rstar).bind fun Rstar4 =>
  (d Key.Rplanet).bind fun Rplanet2 =>
  (d Key.a).bind fun a2 =>
  (d Key.P).bind fun P3 =>
  (d Key.Tdur).bind fun Tdur1 =>
  (d Key.RplanetErr).bind fun RplanetErr2 =>
  (d Key.TdurErr).bind fun TdurErr1 =>
  let inc := calcOrbitalInc Rstar4 Rplanet2 a2 P3 Tdur1 RplanetErr2 TdurErr1
  some (upd (upd d Key.i inc.1) Key.iErr inc.2)

/-- The dictionary a successful `getAllParms` run on `d` produces, given the
seven input values its reads returned. -/
noncomputable def finalDict (d : Dict) (p m r f fe t te : ℝ) : Dict :=
  let rr := calcRplanet f r fe
  let aa := calcOrbitalRad m p
  let inc := calcOrbitalInc r rr.1 aa p t rr.2 te
  upd (upd (upd (upd (upd (upd (upd (upd d
    Key.Rplanet rr.1) Key.RplanetErr rr.2) Key.Rp2Rs (rr.1 / r))
    Key.Rp2RsErr (rr.2 / r)) Key.a aa) Key.v (calcOrbitalSpeed aa p))
    Key.i inc.1) Key.iErr inc.2

/-- An input record holding exactly the five keys the `getAllParms`
docstring documents as required (object-230 style values); both optional
uncertainty keys are absent. -/
noncomputable def requiredOnly : Dict := fun k =>
  match k with
  | Key.P => some 3243.57
  | Key.Mstar => some 1.45
  | Key.Rstar => some 1.591
  | Key.deltaF => some 0.031
  | Key.Tdur => some 1.725
  | _ => none

/-- A full input record (all seven keys present). -/
noncomputable def dFull : Dict := fun k =>
  match k with
  | Key.P => some 1
  | Key.Mstar => some 1
  | Key.Rstar => some 2
  | Key.deltaF => some 1
  | Key.deltaFErr => some 0
  | Key.Tdur => some 0
  | Key.TdurErr => some 0
  | _ => none

/-- The record `getAllParms` produces from `dFull`. -/
noncomputable def dFullOut : Dict := finalDict dFull 1 1 2 1 0 0 0

theorem G_pos : 0 < G := by norm_num [G]

namespace NpVal

@[simp] theorem fin_add_fin (x y : ℝ) : (fin x).add (fin y) = fin (x + y) := rfl

@[simp] theorem fin_mul_fin (x y : ℝ) : (fin x).mul (fin y) = fin (x * y) := rfl

@[simp] theorem fin_sub_fin (x y : ℝ) : (fin x).sub (fin y) = fin (x - y) := by
  simp [sub, neg, sub_eq_add_neg]

@[simp] theorem sq_fin (x : ℝ) : (fin x).sq = fin (x * x) := rfl

@[simp] theorem sin_fin (x : ℝ) : (fin x).sin = fin (Real.sin x) := rfl

@[simp] theorem cos_fin (x : ℝ) : (fin x).cos = fin (Real.cos x) := rfl

@[simp] theorem nan_add (u : NpVal) : nan.add u = nan := rfl

@[simp] theorem add_nan (u : NpVal) : u.add nan = nan := by cases u <;> rfl

@[simp] theorem nan_mul (u : NpVal) : nan.mul u = nan := rfl

@[simp] theorem mul_nan (u : NpVal) : u.mul nan = nan := by cases u <;> rfl

@[simp] theorem nan_sub (u : NpVal) : nan.sub u = nan := rfl

@[simp] theorem sub_nan (u : NpVal) : u.sub nan = nan := by cases u <;> rfl

@[simp] theorem nan_div (u : NpVal) : nan.div u = nan := rfl

@[simp] theorem div_nan (u : NpVal) : u.div nan = nan := by cases u <;> rfl

@[simp] theorem sqrt_nan : nan.sqrt = nan := rfl

@[simp] theorem sq_nan : nan.sq = nan := rfl

@[simp] theorem arccos_nan : nan.arccos = nan := rfl

theorem sqrt_fin_of_nonneg {x : ℝ} (h : 0 ≤ x) : (fin x).sqrt = fin (Real.sqrt x) := by
  simp [sqrt, h]

theorem sqrt_fin_of_neg {x : ℝ} (h : x < 0) : (fin x).sqrt = nan := by
  simp [sqrt, not_le.mpr h]

theorem fin_div_fin_of_ne {x y : ℝ} (h : y ≠ 0) : (fin x).div (fin y) = fin (x / y) := by
  simp [div, h]

theorem sqrt_fin_sq_add_sq (x y : ℝ) :
    (fin (x * x + y * y)).sqrt = fin (Real.sqrt (x * x + y * y)) :=
  sqrt_fin_of_nonneg (add_nonneg (mul_self_nonneg x) (mul_self_nonneg y))

end NpVal

@[simp] theorem upd_self (d : Dict) (k : Key) (x : ℝ) : upd d k x k = some x := by
  simp [upd]

set_option maxHeartbeats 1000000 in
theorem getAllParms_eq (d : Dict) (p m r f fe t te : ℝ)
    (hP : d Key.P = some p) (hM : d Key.Mstar = some m) (hR : d Key.Rstar = some r)
    (hF : d Key.deltaF = some f) (hFe : d Key.deltaFErr = some fe)
    (hT : d Key.Tdur = some t) (hTe : d Key.TdurErr = some te) :
    getAllParms d = some (finalDict d p m r f fe t te) := by
  simp only [getAllParms, finalDict, upd, hP, hM, hR, hF, hFe, hT, hTe,
    Option.some_bind, reduceIte, reduceCtorEq]

theorem getAllParms_some (d e : Dict) (h : getAllParms d = some e) :
    ∃ p m r f fe t te, d Key.P = some p ∧ d Key.Mstar = some m ∧ d Key.Rstar = some r ∧
      d Key.deltaF = some f ∧ d Key.deltaFErr = some fe ∧ d Key.Tdur = some t ∧
      d Key.TdurErr = some te ∧ e = finalDict d p m r f fe t te := by
  rcases hF : d Key.deltaF with _ | f
  · simp only [getAllParms, hF, upd, Option.some_bind, Option.none_bind, reduceIte,
      reduceCtorEq] at h
  rcases hR : d Key.Rstar with _ | r
  · simp only [getAllParms, hF, hR, upd, Option.some_bind, Option.none_bind, reduceIte,
      reduceCtorEq] at h
  rcases hFe : d Key.deltaFErr with _ | fe
  · simp only [getAllParms, hF, hR, hFe, upd, Option.some_bind, Option.none_bind, reduceIte,
      reduceCtorEq] at h
  rcases hM : d Key.Mstar with _ | m
  · simp only [getAllParms, hF, hR, hFe, hM, upd, Option.some_bind, Option.none_bind, reduceIte,
      reduceCtorEq] at h
  rcases hP : d Key.P with _ | p
  · simp only [getAllParms, hF, hR, hFe, hM, hP, upd, Option.some_bind, Option.none_bind,
      reduceIte, reduceCtorEq] at h
  rcases hT : d Key.Tdur with _ | t
  · simp only [getAllParms, hF, hR, hFe, hM, hP, hT, upd, Option.some_bind, Option.none_bind,
      reduceIte, reduceCtorEq] at h
  rcases hTe : d Key.TdurErr with _ | te
  · simp only [getAllParms, hF, hR, hFe, hM, hP, hT, hTe, upd, Option.some_bind,
      Option.none_bind, reduceIte, reduceCtorEq] at h
  refine ⟨p, m, r, f, fe, t, te, rfl, rfl, rfl, rfl, rfl, rfl, rfl, ?_⟩
  have h2 := getAllParms_eq d p m r f fe t te hP hM hR hF hFe hT hTe
  rw [h2] at h
  exact (Option.some.inj h).symm

/-- C1 (code bug): when the optional `deltaFErr` (and/or `TdurErr`) key is
omitted, `getAllParms` does not treat the missing uncertainty as 0 — it
reads `parmDict["deltaFErr"]` and `parmDict["TdurErr"]` unconditionally, so
the lookup fails (`KeyError`), modelled here as `none`, and the computation
never succeeds. -/
theorem c1_missing_err_keys_fail :
    getAllParms requiredOnly = none ∧
    getAllParms (upd requiredOnly Key.deltaFErr 0.002) = none := by
  exact ⟨rfl, rfl⟩

/-- C2: refuted as stated.  For the negative transit depth `deltaF = -1`,
`calcRplanet` does not signal any domain error: numpy's `sqrt` silently
yields NaN, so the returned radius is NaN. -/
theorem c2_counterexample :
    (npCalcRplanet (NpVal.fin (-1)) (NpVal.fin 1) (NpVal.fin 0)).1 = NpVal.nan := by
  have h : (-1 : ℝ) < 0 := by norm_num
  simp [npCalcRplanet, NpVal.sqrt_fin_of_neg h]

/-- C2 (amended): `calcRplanet` performs no domain validation.  For every
`deltaF < 0` it silently returns NaN for both the radius and its
uncertainty, and for `deltaF = 0` (with `Rstar = 1`, `deltaFErr = 1`) the
propagated uncertainty is a silent infinity; no error is ever signaled. -/
theorem c2_no_domain_error :
    (∀ x r e : ℝ, x < 0 →
      npCalcRplanet (NpVal.fin x) (NpVal.fin r) (NpVal.fin e) = (NpVal.nan, NpVal.nan)) ∧
    (npCalcRplanet (NpVal.fin 0) (NpVal.fin 1) (NpVal.fin 1)).2 = NpVal.inf := by
  constructor
  · intro x r e hx
    simp [npCalcRplanet, NpVal.sqrt_fin_of_neg hx]
  · norm_num [npCalcRplanet, NpVal.sqrt, NpVal.div, NpVal.mul, Real.sqrt_zero]

theorem c2_no_domain_error_witness :
    npCalcRplanet (NpVal.fin (-2)) (NpVal.fin 3) (NpVal.fin 5) = (NpVal.nan, NpVal.nan) :=
  c2_no_domain_error.1 (-2) 3 5 (by norm_num)

/-- C3: refuted as stated.  At `Rstar = 0`, `Rplanet = 0`, `a = 1`, `P = 2`,
`Tdur = 1` the quantity `Z` is `-1 < 0`, yet `calcOrbitalInc` signals no
domain error: numpy's `sqrt` and `arccos` silently produce NaN and both
returned values are NaN. -/
theorem c3_counterexample :
    npCalcOrbitalInc (NpVal.fin 0) (NpVal.fin 0) (NpVal.fin 1) (NpVal.fin 2) (NpVal.fin 1)
      (NpVal.fin 0) (NpVal.fin 0) = (NpVal.nan, NpVal.nan) := by
  have hp : (2 : ℝ) ≠ 0 := by norm_num
  have hZ : ((0 : ℝ) + 0) * ((0 : ℝ) + 0) -
      (1 * Real.sin (Real.pi * 1 / 2)) * (1 * Real.sin (Real.pi * 1 / 2)) < 0 := by
    norm_num [Real.sin_pi_div_two]
  have hsq := NpVal.sqrt_fin_of_neg hZ
  simp only [npCalcOrbitalInc, NpVal.fin_add_fin, NpVal.fin_mul_fin, NpVal.fin_sub_fin,
    NpVal.sq_fin, NpVal.sin_fin, NpVal.cos_fin, NpVal.fin_div_fin_of_ne hp,
    NpVal.sqrt_fin_sq_add_sq, hsq, NpVal.nan_div, NpVal.div_nan, NpVal.mul_nan,
    NpVal.nan_mul, NpVal.sub_nan, NpVal.sq_nan, NpVal.sqrt_nan, NpVal.arccos_nan]

/-- C3 (amended): `calcOrbitalInc` performs no domain validation.  For every
finite input with `P ≠ 0` and `Z = (Rstar+Rplanet)² - (a·sin(π·Tdur/P))² < 0`,
both returned values are silently NaN (numpy `sqrt` of a negative and
`arccos` of NaN), and no stage reports an error. -/
theorem c3_no_domain_error (rs rp a p td rpe tde : ℝ) (hp : p ≠ 0)
    (hZ : (rs + rp) * (rs + rp) -
      (a * Real.sin (Real.pi * td / p)) * (a * Real.sin (Real.pi * td / p)) < 0) :
    npCalcOrbitalInc (NpVal.fin rs) (NpVal.fin rp) (NpVal.fin a) (NpVal.fin p)
      (NpVal.fin td) (NpVal.fin rpe) (NpVal.fin tde) = (NpVal.nan, NpVal.nan) := by
  have hsq := NpVal.sqrt_fin_of_neg hZ
  simp only [npCalcOrbitalInc, NpVal.fin_add_fin, NpVal.fin_mul_fin, NpVal.fin_sub_fin,
    NpVal.sq_fin, NpVal.sin_fin, NpVal.cos_fin, NpVal.fin_div_fin_of_ne hp,
    NpVal.sqrt_fin_sq_add_sq, hsq, NpVal.nan_div, NpVal.div_nan, NpVal.mul_nan,
    NpVal.nan_mul, NpVal.sub_nan, NpVal.sq_nan, NpVal.sqrt_nan, NpVal.arccos_nan]

theorem c3_no_domain_error_witness :
    npCalcOrbitalInc (NpVal.fin 0) (NpVal.fin 0) (NpVal.fin 2) (NpVal.fin 2) (NpVal.fin 1)
      (NpVal.fin 1) (NpVal.fin 1) = (NpVal.nan, NpVal.nan) :=
  c3_no_domain_error 0 0 2 2 1 1 1 (by norm_num)
    (by norm_num [Real.sin_pi_div_two])

/-- C4: refuted as stated.  At the valid input `Rstar = 1`, `Rplanet = 0`,
`a = 1`, `P = 1`, `Tdur = 0` (where `Z = 1` and `Q = 1`), the first value
returned by `calcOrbitalInc` is `π/2`, not `arccos(Q) = 0`: the code
returns `π/2 - arccos(Q)`. -/
theorem c4_counterexample :
    (calcOrbitalInc 1 0 1 1 0 0 0).1 ≠
      Real.arccos (Real.sqrt (((1 : ℝ) + 0) ^ 2 -
        (1 * Real.sin (Real.pi * 0 / 1)) ^ 2) / 1) := by
  have hs : Real.sin (Real.pi * 0 / 1) = 0 := by
    rw [mul_zero, zero_div, Real.sin_zero]
  have h1 : (calcOrbitalInc 1 0 1 1 0 0 0).1 =
      Real.pi / 2 - Real.arccos (Real.sqrt (((1 : ℝ) + 0) ^ 2 -
        (1 * Real.sin (Real.pi * 0 / 1)) ^ 2) / 1) := rfl
  rw [h1, hs]
  norm_num [Real.sqrt_one, Real.arccos_one]
  exact Real.pi_ne_zero

/-- C4 (amended): for every valid input to `calcOrbitalInc` (`a > 0`,
`0 ≤ Z ≤ a²`), the first returned value equals `π/2 - arccos(Q)` — ninety
degrees minus the angle the claim names (the code returns its variable `i`,
not `arccos(Q)`) — and the second returned value equals `Qerr/sqrt(1-Q²)`
with `Qerr = Zerr/(2·a·sqrt(Z))` as in the spec's staged propagation. -/
theorem c4_inclination_formula (rs rp a p td rpe tde : ℝ) (ha : 0 < a)
    (hZ0 : 0 ≤ (rs + rp) ^ 2 - (a * Real.sin (Real.pi * td / p)) ^ 2)
    (hZa : (rs + rp) ^ 2 - (a * Real.sin (Real.pi * td / p)) ^ 2 ≤ a ^ 2) :
    (calcOrbitalInc rs rp a p td rpe tde).1 =
      Real.pi / 2 - Real.arccos (Real.sqrt ((rs + rp) ^ 2 -
        (a * Real.sin (Real.pi * td / p)) ^ 2) / a) ∧
    (calcOrbitalInc rs rp a p td rpe tde).2 =
      (Real.sqrt ((2 * (rs + rp) * rpe) ^ 2 +
          (2 * a * Real.sin (Real.pi * td / p) * a * Real.cos (Real.pi * td / p) *
            Real.pi / p * tde) ^ 2) /
        (2 * a * Real.sqrt ((rs + rp) ^ 2 - (a * Real.sin (Real.pi * td / p)) ^ 2))) /
      Real.sqrt (1 - (Real.sqrt ((rs + rp) ^ 2 -
        (a * Real.sin (Real.pi * td / p)) ^ 2) / a) ^ 2) :=
  ⟨rfl, rfl⟩

theorem c4_inclination_formula_witness :
    (calcOrbitalInc 1 0 1 1 0 0 0).1 =
      Real.pi / 2 - Real.arccos (Real.sqrt (((1 : ℝ) + 0) ^ 2 -
        (1 * Real.sin (Real.pi * 0 / 1)) ^ 2) / 1) :=
  (c4_inclination_formula 1 0 1 1 0 0 0 (by norm_num)
    (by rw [mul_zero, zero_div, Real.sin_zero]; norm_num)
    (by rw [mul_zero, zero_div, Real.sin_zero]; norm_num)).1

/-- C5: refuted as stated.  At `Rstar = 1`, `Rplanet = 0`, `a = 1`, `P = 2`,
`Tdur = 1` the quantity `Z` is exactly `0` and `Q = 0`, but the returned
offset is `0` radians (`π/2 - arccos 0`), not ninety degrees. -/
theorem c5_counterexample :
    (calcOrbitalInc 1 0 1 2 1 0 0).1 ≠ Real.pi / 2 := by
  have hs : Real.sin (Real.pi * 1 / 2) = 1 := by rw [mul_one]; exact Real.sin_pi_div_two
  have h1 : (calcOrbitalInc 1 0 1 2 1 0 0).1 =
      Real.pi / 2 - Real.arccos (Real.sqrt (((1 : ℝ) + 0) ^ 2 -
        (1 * Real.sin (Real.pi * 1 / 2)) ^ 2) / 1) := rfl
  rw [h1, hs]
  norm_num [Real.sqrt_zero, Real.arccos_zero]
  exact ne_of_lt (by positivity : (0 : ℝ) < Real.pi / 2)

/-- C5 (amended): when `Z = X - Y` is exactly `0` (and `a > 0`),
`calcOrbitalInc` reaches the edge-on limit: `Q = 0` and the reported offset
from edge-on is `0` radians (an exactly edge-on orbit has zero offset), with
no domain restriction violated at `Z = 0` (only `Z < 0` leaves the domain of
the square root). -/
theorem c5_edge_on (rs rp a p td rpe tde : ℝ) (ha : 0 < a)
    (hZ : (rs + rp) ^ 2 = (a * Real.sin (Real.pi * td / p)) ^ 2) :
    Real.sqrt ((rs + rp) ^ 2 - (a * Real.sin (Real.pi * td / p)) ^ 2) / a = 0 ∧
    (calcOrbitalInc rs rp a p td rpe tde).1 = 0 := by
  have hz : (rs + rp) ^ 2 - (a * Real.sin (Real.pi * td / p)) ^ 2 = 0 := by
    rw [hZ]; ring
  have h1 : (calcOrbitalInc rs rp a p td rpe tde).1 =
      Real.pi / 2 - Real.arccos (Real.sqrt ((rs + rp) ^ 2 -
        (a * Real.sin (Real.pi * td / p)) ^ 2) / a) := rfl
  refine ⟨?_, ?_⟩
  · rw [hz, Real.sqrt_zero, zero_div]
  · rw [h1, hz, Real.sqrt_zero, zero_div, Real.arccos_zero, sub_self]

theorem c5_edge_on_witness :
    (calcOrbitalInc 1 0 1 2 1 0 0).1 = 0 :=
  (c5_edge_on 1 0 1 2 1 0 0 (by norm_num)
    (by rw [mul_one, Real.sin_pi_div_two]; norm_num)).2

/-- C10: for every input to `calcOrbitalInc` with `a > 0` and
`0 ≤ sqrt(Z)/a ≤ 1`, the returned angle lies in `[0, π/2]` radians. -/
theorem c10_alpha_in_range (rs rp a p td rpe tde : ℝ) (ha : 0 < a)
    (h0 : 0 ≤ Real.sqrt ((rs + rp) ^ 2 - (a * Real.sin (Real.pi * td / p)) ^ 2) / a)
    (h1 : Real.sqrt ((rs + rp) ^ 2 - (a * Real.sin (Real.pi * td / p)) ^ 2) / a ≤ 1) :
    0 ≤ (calcOrbitalInc rs rp a p td rpe tde).1 ∧
    (calcOrbitalInc rs rp a p td rpe tde).1 ≤ Real.pi / 2 := by
  have heq : (calcOrbitalInc rs rp a p td rpe tde).1 =
      Real.pi / 2 - Real.arccos (Real.sqrt ((rs + rp) ^ 2 -
        (a * Real.sin (Real.pi * td / p)) ^ 2) / a) := rfl
  rw [heq, Real.arccos_eq_pi_div_two_sub_arcsin]
  have h2 : 0 ≤ Real.arcsin (Real.sqrt ((rs + rp) ^ 2 -
      (a * Real.sin (Real.pi * td / p)) ^ 2) / a) := Real.arcsin_nonneg.mpr h0
  have h3 : Real.arcsin (Real.sqrt ((rs + rp) ^ 2 -
      (a * Real.sin (Real.pi * td / p)) ^ 2) / a) ≤ Real.pi / 2 :=
    Real.arcsin_le_pi_div_two _
  constructor <;> linarith

theorem c10_alpha_in_range_witness :
    0 ≤ (calcOrbitalInc 1 0 1 1 0 0 0).1 ∧
    (calcOrbitalInc 1 0 1 1 0 0 0).1 ≤ Real.pi / 2 :=
  c10_alpha_in_range 1 0 1 1 0 0 0 (by norm_num)
    (by rw [mul_zero, zero_div, Real.sin_zero]; norm_num [Real.sqrt_one])
    (by rw [mul_zero, zero_div, Real.sin_zero]; norm_num [Real.sqrt_one])

/-- C6: a successful `getAllParms` run never changes the seven input
fields; the `Rplanet`, `RplanetErr`, `Rp2Rs`, `Rp2RsErr`, `a` and `v`
fields of the result are exactly the values computed by their own stages,
unchanged after the inclination stage runs; and running the whole
computation a second time on the resulting record returns it unchanged. -/
theorem c6_frame_and_idempotent (d e : Dict) (h : getAllParms d = some e)
    (p m r f fe t te : ℝ)
    (hP : d Key.P = some p) (hM : d Key.Mstar = some m) (hR : d Key.Rstar = some r)
    (hF : d Key.deltaF = some f) (hFe : d Key.deltaFErr = some fe)
    (hT : d Key.Tdur = some t) (hTe : d Key.TdurErr = some te) :
    (e Key.P = d Key.P ∧ e Key.Mstar = d Key.Mstar ∧ e Key.Rstar = d Key.Rstar ∧
      e Key.deltaF = d Key.deltaF ∧ e Key.deltaFErr = d Key.deltaFErr ∧
      e Key.Tdur = d Key.Tdur ∧ e Key.TdurErr = d Key.TdurErr) ∧
    (e Key.Rplanet = some (calcRplanet f r fe).1 ∧
      e Key.RplanetErr = some (calcRplanet f r fe).2 ∧
      e Key.Rp2Rs = some ((calcRplanet f r fe).1 / r) ∧
      e Key.Rp2RsErr = some ((calcRplanet f r fe).2 / r) ∧
      e Key.a = some (calcOrbitalRad m p) ∧
      e Key.v = some (calcOrbitalSpeed (calcOrbitalRad m p) p)) ∧
    getAllParms e = some e := by
  have he : e = finalDict d p m r f fe t te := by
    have h2 := getAllParms_eq d p m r f fe t te hP hM hR hF hFe hT hTe
    rw [h2] at h
    exact (Option.some.inj h).symm
  subst he
  refine ⟨⟨?_, ?_, ?_, ?_, ?_, ?_, ?_⟩, ⟨?_, ?_, ?_, ?_, ?_, ?_⟩, ?_⟩
  · simp only [finalDict, upd, reduceIte, reduceCtorEq]
  · simp only [finalDict, upd, reduceIte, reduceCtorEq]
  · simp only [finalDict, upd, reduceIte, reduceCtorEq]
  · simp only [finalDict, upd, reduceIte, reduceCtorEq]
  · simp only [finalDict, upd, reduceIte, reduceCtorEq]
  · simp only [finalDict, upd, reduceIte, reduceCtorEq]
  · simp only [finalDict, upd, reduceIte, reduceCtorEq]
  · simp only [finalDict, upd, reduceIte, reduceCtorEq]
  · simp only [finalDict, upd, reduceIte, reduceCtorEq]
  · simp only [finalDict, upd, reduceIte, reduceCtorEq]
  · simp only [finalDict, upd, reduceIte, reduceCtorEq]
  · simp only [finalDict, upd, reduceIte, reduceCtorEq]
  · simp only [finalDict, upd, reduceIte, reduceCtorEq]
  · have hP2 : finalDict d p m r f fe t te Key.P = some p := by
      simp only [finalDict, upd, reduceIte, reduceCtorEq]; exact hP
    have hM2 : finalDict d p m r f fe t te Key.Mstar = some m := by
      simp only [finalDict, upd, reduceIte, reduceCtorEq]; exact hM
    have hR2 : finalDict d p m r f fe t te Key.Rstar = some r := by
      simp only [finalDict, upd, reduceIte, reduceCtorEq]; exact hR
    have hF2 : finalDict d p m r f fe t te Key.deltaF = some f := by
      simp only [finalDict, upd, reduceIte, reduceCtorEq]; exact hF
    have hFe2 : finalDict d p m r f fe t te Key.deltaFErr = some fe := by
      simp only [finalDict, upd, reduceIte, reduceCtorEq]; exact hFe
    have hT2 : finalDict d p m r f fe t te Key.Tdur = some t := by
      simp only [finalDict, upd, reduceIte, reduceCtorEq]; exact hT
    have hTe2 : finalDict d p m r f fe t te Key.TdurErr = some te := by
      simp only [finalDict, upd, reduceIte, reduceCtorEq]; exact hTe
    have h3 := getAllParms_eq (finalDict d p m r f fe t te) p m r f fe t te
      hP2 hM2 hR2 hF2 hFe2 hT2 hTe2
    rw [h3]
    refine congrArg some (funext fun q => ?_)
    cases q <;> simp only [finalDict, upd, reduceIte, reduceCtorEq]

theorem c6_frame_and_idempotent_witness : getAllParms dFullOut = some dFullOut :=
  (c6_frame_and_idempotent dFull dFullOut
    (getAllParms_eq dFull 1 1 2 1 0 0 0 rfl rfl rfl rfl rfl rfl rfl)
    1 1 2 1 0 0 0 rfl rfl rfl rfl rfl rfl rfl).2.2

/-- C7: for `deltaF ≥ 0` and `Rstar > 0`, the radius ratio `Rp2Rs` stored
by the pipeline equals `sqrt(deltaF)`, independently of the value of
`Rstar` (scale invariance). -/
theorem c7_rp2rs_scale_invariant (d e : Dict) (f r : ℝ) (h : getAllParms d = some e)
    (hF : d Key.deltaF = some f) (hR : d Key.Rstar = some r)
    (hf : 0 ≤ f) (hr : 0 < r) :
    e Key.Rp2Rs = some (Real.sqrt f) := by
  obtain ⟨p, m, r2, f2, fe, t, te, hP2, hM2, hR2, hF2, hFe2, hT2, hTe2, he⟩ :=
    getAllParms_some d e h
  have hff : f2 = f := Option.some.inj (hF2.symm.trans hF)
  have hrr : r2 = r := Option.some.inj (hR2.symm.trans hR)
  subst he
  rw [hff, hrr]
  have hv : finalDict d p m r f fe t te Key.Rp2Rs =
      some ((calcRplanet f r fe).1 / r) := by
    simp only [finalDict, upd, reduceIte, reduceCtorEq]
  rw [hv]
  exact congrArg some (mul_div_cancel_right₀ _ hr.ne')

theorem c7_rp2rs_scale_invariant_witness : dFullOut Key.Rp2Rs = some (Real.sqrt 1) :=
  c7_rp2rs_scale_invariant dFull dFullOut 1 2
    (getAllParms_eq dFull 1 1 2 1 0 0 0 rfl rfl rfl rfl rfl rfl rfl)
    rfl rfl (by norm_num) (by norm_num)

/-- C8: for deltaF in (0,1], the planet-radius uncertainty returned by
`calcRplanet` is linear in `deltaFErr`: doubling `deltaFErr` doubles
`RplanetErr`, and `deltaFErr = 0` gives `RplanetErr = 0`. -/
theorem c8_rplanetErr_linear (deltaF Rstar deltaFErr : ℝ)
    (h0 : 0 < deltaF) (h1 : deltaF ≤ 1) :
    (calcRplanet deltaF Rstar (2 * deltaFErr)).2 =
      2 * (calcRplanet deltaF Rstar deltaFErr).2 ∧
    (calcRplanet deltaF Rstar 0).2 = 0 := by
  constructor
  · show Rstar / (2 * Real.sqrt deltaF) * (2 * deltaFErr) =
      2 * (Rstar / (2 * Real.sqrt deltaF) * deltaFErr)
    ring
  · show Rstar / (2 * Real.sqrt deltaF) * 0 = 0
    exact mul_zero _

theorem c8_rplanetErr_linear_witness :
    (calcRplanet (1 : ℝ) 1 (2 * 1)).2 = 2 * (calcRplanet (1 : ℝ) 1 1).2 ∧
    (calcRplanet (1 : ℝ) 1 0).2 = 0 :=
  c8_rplanetErr_linear 1 1 1 (by norm_num) (by norm_num)

/-- C9: `calcOrbitalRad` is strictly increasing in `Mstar` (on the physical
domain of positive masses) for fixed `P > 0`, strictly increasing in `P`
(on positive periods) for fixed `Mstar > 0`, and `calcOrbitalRad Mstar 0 = 0`
for every `Mstar`. -/
theorem c9_calcOrbitalRad_monotone :
    (∀ P M1 M2 : ℝ, 0 < P → 0 < M1 → M1 < M2 →
      calcOrbitalRad M1 P < calcOrbitalRad M2 P) ∧
    (∀ M P1 P2 : ℝ, 0 < M → 0 < P1 → P1 < P2 →
      calcOrbitalRad M P1 < calcOrbitalRad M P2) ∧
    (∀ M : ℝ, calcOrbitalRad M 0 = 0) := by
  refine ⟨?_, ?_, ?_⟩
  · intro P M1 M2 hP hM1 hM12
    apply Real.rpow_lt_rpow
    · have : (0:ℝ) < G * M1 * P ^ 2 := by
        exact mul_pos (mul_pos G_pos hM1) (by positivity)
      have hd : (0:ℝ) < 4 * Real.pi ^ 2 := by positivity
      exact (div_pos this hd).le
    · apply (div_lt_div_iff_of_pos_right (by positivity : (0:ℝ) < 4 * Real.pi ^ 2)).mpr
      exact mul_lt_mul_of_pos_right (mul_lt_mul_of_pos_left hM12 G_pos)
        (by positivity)
    · norm_num
  · intro M P1 P2 hM hP1 hP12
    apply Real.rpow_lt_rpow
    · have : (0:ℝ) < G * M * P1 ^ 2 := by
        exact mul_pos (mul_pos G_pos hM) (by positivity)
      have hd : (0:ℝ) < 4 * Real.pi ^ 2 := by positivity
      exact (div_pos this hd).le
    · apply (div_lt_div_iff_of_pos_right (by positivity : (0:ℝ) < 4 * Real.pi ^ 2)).mpr
      have hsq : P1 ^ 2 < P2 ^ 2 := by
        apply pow_lt_pow_left₀ hP12 hP1.le
        norm_num
      exact mul_lt_mul_of_pos_left hsq (mul_pos G_pos hM)
    · norm_num
  · intro M
    have hz : G * M * (0:ℝ) ^ 2 / (4 * Real.pi ^ 2) = 0 := by ring
    rw [calcOrbitalRad, hz, Real.zero_rpow (by norm_num)]

theorem c9_calcOrbitalRad_monotone_witness :
    calcOrbitalRad 1 1 < calcOrbitalRad 2 1 ∧
    calcOrbitalRad 1 1 < calcOrbitalRad 1 2 ∧
    calcOrbitalRad 5 0 = 0 :=
  ⟨c9_calcOrbitalRad_monotone.1 1 1 2 (by norm_num) (by norm_num) (by norm_num),
   c9_calcOrbitalRad_monotone.2.1 1 1 2 (by norm_num) (by norm_num) (by norm_num),
   c9_calcOrbitalRad_monotone.2.2 5⟩

end Tutorial2
